import Mathlib

/-!
Verification development for the test-harness repository: a shallow
embedding of the process orchestrator described by the design document
(its source is not part of the checked-in tree, so the orchestrator is
modelled from the spec), together with embeddings of the checked-in
Python utilities `convert_to_docx.py` and
`frontend/scripts/test-webapp-pages.py`.
-/

namespace Orchestrator

/-- Modelled from the spec: `ServiceSpec` is the declarative description of
one service to launch: command line, required port, per-service readiness
timeout in seconds.  (The orchestrator's source file is missing from the
tree; every definition in this namespace is modelled from the spec.) -/
structure ServiceSpec where
  command : String
  port : Nat
  timeoutSeconds : Nat
deriving Repr, DecidableEq, Inhabited

/-- Modelled from the spec: `LaunchedProcess` is created the instant a
service command is spawned.  The spawned child is placed in its own new
process group, so the group id coincides with the process id.  The
`terminated` flag records that the handle has been invalidated by passing
through teardown. -/
structure LaunchedProcess where
  spec : ServiceSpec
  processId : Nat
  processGroupId : Nat
  terminated : Bool
deriving Repr, DecidableEq

/-- Modelled from the spec: the run environment seen by the orchestrator —
whether service number `i` becomes network-ready within its timeout, and
the exit code the target command returns when it runs to completion. -/
structure Env where
  ready : Nat → Bool
  cmdExit : Nat

/-- Modelled from the spec: `terminate` on one handle
(`ProcessTreeTerminator`).  Termination is best-effort and never raises; a
handle that is already invalidated is skipped, a live one is invalidated. -/
def terminate (p : LaunchedProcess) : LaunchedProcess :=
  if p.terminated then p else { p with terminated := true }

/-- Modelled from the spec: teardown iterates every `LaunchedProcess`
created so far and terminates each, independent of individual terminator
failures. -/
def teardown (l : List LaunchedProcess) : List LaunchedProcess :=
  l.map terminate

/-- Modelled from the spec: the termination signals one teardown pass
sends — one per entry whose handle is still valid (an entry already torn
down is skipped, never signalled or closed again). -/
def teardownSignals (l : List LaunchedProcess) : List Nat :=
  (l.filter (fun p => !p.terminated)).map (fun p => p.processId)

/-- Modelled from the spec: outcome of one TCP connect probe by the
`PortReadinessChecker`.  Connection-refused and connect-timeout are the
expected transient states. -/
inductive ProbeResult
  | success
  | refused
  | timedOut
deriving Repr, DecidableEq

/-- Modelled from the spec: one raw TCP connect, which raises on a refused
or timed-out connection (the readiness checker must catch both). -/
def rawConnect : ProbeResult → Except String Unit
  | .success => .ok ()
  | .refused => .error "connection refused"
  | .timedOut => .error "connection timed out"

/-- Modelled from the spec: the bounded retry loop of
`PortReadinessChecker.waitReady`.  Time is counted in tenths of a second;
the fixed inter-attempt delay is 5 tenths (0.5 s).  Attempt `attempt` is
made with `elapsed` tenths already spent; the loop stops with `false` once
the cumulative elapsed time would exceed the timeout.  A raised probe error
is caught and treated as "not ready yet". -/
def waitLoop (probe : Nat → ProbeResult) (timeoutTenths elapsed attempt : Nat) :
    Except String Bool :=
  match rawConnect (probe attempt) with
  | .ok _ => .ok true
  | .error _ =>
    if h : timeoutTenths < elapsed + 5 then .ok false
    else waitLoop probe timeoutTenths (elapsed + 5) (attempt + 1)
termination_by timeoutTenths - elapsed
decreasing_by omega

/-- Modelled from the spec: `waitReady(host, port, timeoutSeconds)`.  The
network behaviour is a function giving the result of the `k`-th connect
probe against `host:port`. -/
def waitReady (net : String → Nat → Nat → ProbeResult) (host : String)
    (port : Nat) (timeoutSeconds : Nat) : Except String Bool :=
  waitLoop (net host port) (10 * timeoutSeconds) 0 0

/-- Modelled from the spec: the orchestrator state machine's phases
`Idle → StartingServices → RunningCommand → TearingDown → Done`. -/
inductive Phase
  | idle
  | startingServices
  | runningCommand
  | tearingDown
  | done
deriving Repr, DecidableEq

/-- Modelled from the spec: `RunOutcome.failureStage`. -/
inductive FailureStage
  | noFailure
  | serviceStartup
  | serviceReadiness
  | commandExecution
deriving Repr, DecidableEq

/-- Modelled from the spec: the two operator signals that can interrupt a
run externally. -/
inductive SigType
  | interrupt
  | terminate
deriving Repr, DecidableEq

/-- Modelled from the spec: reserved exit code for each signal type
(conventional 128+SIGINT and 128+SIGTERM values; the spec only requires one
distinguished code per signal type). -/
def reservedSignalExitCode : SigType → Nat
  | .interrupt => 130
  | .terminate => 143

/-- Modelled from the spec: the distinct exit code for configuration
errors. -/
def configErrorExitCode : Nat := 2

/-- Modelled from the spec: the reserved exit code for readiness-timeout
failures. -/
def readinessFailureExitCode : Nat := 3

/-- Modelled from the spec: one input consumed by the state machine —
either an uninterrupted step of the single control thread, or an external
operator signal delivered before the next step. -/
inductive OrchInput
  | tick
  | signal (sig : SigType)
deriving Repr, DecidableEq

/-- Modelled from the spec: the orchestrator's state: current phase, index
of the next service to launch, every `LaunchedProcess` created so far, how
many times the target command has been invoked, and the tentative result
exit code. -/
structure OrchState where
  phase : Phase
  nextService : Nat
  launched : List LaunchedProcess
  cmdRuns : Nat
  outcome : Option Nat
  failureStage : FailureStage
deriving Repr, DecidableEq

/-- Modelled from the spec: `ProcessLauncher.launch` for service number `i`
of the declared list — the child is detached into its own fresh process
group, so group id equals process id (modelled as the service index). -/
def launchAt (specs : List ServiceSpec) (i : Nat) : LaunchedProcess :=
  { spec := specs.getD i default
    processId := i
    processGroupId := i
    terminated := false }

/-- The processes launched for services `j, j+1, …, j+c-1`, in launch
order. -/
def launchSeg (specs : List ServiceSpec) (j : Nat) : Nat → List LaunchedProcess
  | 0 => []
  | c + 1 => launchAt specs j :: launchSeg specs (j + 1) c

/-- Modelled from the spec: one uninterrupted step of the control thread.
In `StartingServices` the next declared service is launched and then
readiness-gated before the following one may start; a readiness failure
transitions directly to `TearingDown`.  Once every service is ready the
target command runs, its exit code becomes the tentative outcome, and the
state transitions unconditionally to `TearingDown`, which drives `teardown`
over every launched process and then reaches `Done`. -/
def stepTick (specs : List ServiceSpec) (env : Env) (s : OrchState) : OrchState :=
  match s.phase with
  | .idle => { s with phase := .startingServices, nextService := 0 }
  | .startingServices =>
    if s.nextService < specs.length then
      if env.ready s.nextService then
        { s with launched := s.launched ++ [launchAt specs s.nextService]
                 nextService := s.nextService + 1 }
      else
        { s with launched := s.launched ++ [launchAt specs s.nextService]
                 phase := .tearingDown
                 failureStage := .serviceReadiness
                 outcome := some readinessFailureExitCode }
    else
      { s with phase := .runningCommand }
  | .runningCommand =>
    { s with cmdRuns := s.cmdRuns + 1
             outcome := some env.cmdExit
             phase := .tearingDown }
  | .tearingDown =>
    { s with launched := teardown s.launched, phase := .done }
  | .done => s

/-- Modelled from the spec: an external interrupt/terminate signal received
in any non-terminal state forces an immediate transition to `TearingDown`
and replaces the tentative outcome by the reserved code for the signal
type. -/
def stepSignal (sig : SigType) (s : OrchState) : OrchState :=
  match s.phase with
  | .done => s
  | _ => { s with phase := .tearingDown
                  outcome := some (reservedSignalExitCode sig) }

/-- Modelled from the spec: the orchestrator's transition function. -/
def step (specs : List ServiceSpec) (env : Env) (s : OrchState) :
    OrchInput → OrchState
  | .tick => stepTick specs env s
  | .signal sig => stepSignal sig s

/-- Run `n` uninterrupted control-thread steps. -/
def ticks (specs : List ServiceSpec) (env : Env) : Nat → OrchState → OrchState
  | 0, s => s
  | n + 1, s => ticks specs env n (step specs env s .tick)

/-- Modelled from the spec: the `Idle` state a run starts from. -/
def initState : OrchState :=
  { phase := .idle
    nextService := 0
    launched := []
    cmdRuns := 0
    outcome := none
    failureStage := .noFailure }

/-- Modelled from the spec: an uninterrupted run of the orchestrator on a
validated `ServiceSpec` list.  `specs.length + 4` control-thread steps
always suffice to reach `Done`. -/
def run (specs : List ServiceSpec) (env : Env) : OrchState :=
  ticks specs env (specs.length + 4) initState

/-- Every entry of the set has been terminated (passed through teardown). -/
def allTerminated (l : List LaunchedProcess) : Prop :=
  ∀ p ∈ l, p.terminated = true

/-- Modelled from the spec: the invocation surface — repeated `service`
commands, repeated positionally-paired `port`s, a per-service readiness
timeout, repeated `KEY=VALUE` environment overrides, and the trailing
target command (everything after the `--` separator; empty means it was
absent). -/
structure Invocation where
  services : List String
  ports : List Nat
  timeoutSeconds : Nat
  envPairs : List String
  targetCmd : List String
deriving Repr, DecidableEq

/-- Modelled from the spec: `ConfigurationError` — malformed invocation. -/
inductive ConfigurationError
  | countMismatch
  | missingTargetCommand
deriving Repr, DecidableEq

/-- Modelled from the spec: assemble the ordered `ServiceSpec` list by
positionally pairing `service` and `port` parameters. -/
def mkSpecs (inv : Invocation) : List ServiceSpec :=
  List.zipWith (fun c p => { command := c, port := p, timeoutSeconds := inv.timeoutSeconds })
    inv.services inv.ports

/-- Modelled from the spec: parse one `KEY=VALUE` environment override. -/
def parseOverlayPair (s : String) : String × String :=
  (String.mk (s.data.takeWhile (fun c => c ≠ '=')),
   String.mk ((s.data.dropWhile (fun c => c ≠ '=')).drop 1))

/-- Modelled from the spec: configuration parsing and validation.  Pure; it
fails with a `ConfigurationError` when the `service`/`port` counts mismatch
or no target command is supplied, and launches nothing. -/
def parseConfig (inv : Invocation) :
    Except ConfigurationError (List ServiceSpec × List (String × String) × List String) :=
  if inv.services.length ≠ inv.ports.length then
    .error .countMismatch
  else if inv.targetCmd.isEmpty then
    .error .missingTargetCommand
  else
    .ok (mkSpecs inv, inv.envPairs.map parseOverlayPair, inv.targetCmd)

/-- The externally observed result of a top-level orchestrator call: its
exit code, every process it ever spawned, and how many times the target
command was invoked. -/
structure RunResult where
  exitCode : Nat
  launched : List LaunchedProcess
  cmdRuns : Nat
deriving Repr, DecidableEq

/-- Modelled from the spec: the orchestrator's top-level call — validate
the invocation (a configuration error is surfaced immediately, before any
process is spawned), then drive the state machine to completion. -/
def orchestrate (inv : Invocation) (env : Env) : RunResult :=
  match parseConfig inv with
  | .error _ => { exitCode := configErrorExitCode, launched := [], cmdRuns := 0 }
  | .ok cfg =>
    let f := run cfg.1 env
    { exitCode := f.outcome.getD 0, launched := f.launched, cmdRuns := f.cmdRuns }

end Orchestrator

namespace PyStr

/-- Embedding of Python `str.startswith`: character-list prefix test. -/
def pyStartsWith (s p : String) : Bool :=
  List.isPrefixOf p.data s.data

/-- Embedding of Python `str.strip`: drop whitespace from both ends. -/
def pyStrip (s : String) : String :=
  String.mk (((s.data.dropWhile Char.isWhitespace).reverse.dropWhile
    Char.isWhitespace).reverse)

/-- Embedding of Python slicing `s[n:]`. -/
def pyDrop (s : String) (n : Nat) : String :=
  String.mk (s.data.drop n)

/-- Embedding of Python `c in s` for a single character. -/
def pyContainsChar (s : String) (c : Char) : Bool :=
  s.data.contains c

/-- Scanner for the regex `^\d+\. `: `k` counts the digits consumed so
far. -/
def digitsDotSpace : List Char → Nat → Bool
  | '.' :: ' ' :: _, k => decide (0 < k)
  | c :: rest, k => if c.isDigit then digitsDotSpace rest (k + 1) else false
  | [], _ => false

/-- Embedding of `re.match(r'^\d+\. ', line)` used for numbered list
items. -/
def isNumberedItem (s : String) : Bool :=
  digitsDotSpace s.data 0

/-- Embedding of `re.sub(r'^\d+\. ', '', line)`: remove the leading
`digits dot space` prefix when it matches, otherwise leave the line
unchanged. -/
def dropNumberedItemMark (s : String) : String :=
  if (s.data.takeWhile Char.isDigit).isEmpty then s
  else
    match s.data.dropWhile Char.isDigit with
    | '.' :: ' ' :: r => String.mk r
    | _ => s

/-- Character class `[\s\-:]` of the table-separator regex. -/
def tableSepChar (c : Char) : Bool :=
  c.isWhitespace || c = '-' || c = ':'

/-- Scanner for `[\s\-:]+\|` after the leading bar: `k` counts the
separator characters consumed so far. -/
def tableSepTail : List Char → Nat → Bool
  | [], _ => false
  | c :: rest, k =>
    if c = '|' then decide (0 < k)
    else if tableSepChar c then tableSepTail rest (k + 1) else false

/-- Embedding of `re.match(r'^\|[\s\-:]+\|', line)` used to skip table
header separator rows. -/
def isTableSeparatorLine (s : String) : Bool :=
  match s.data with
  | '|' :: rest => tableSepTail rest 0
  | _ => false

/-- Embedding of Python `str.split('|')` on the character list. -/
def splitOnBar : List Char → List Char → List (List Char)
  | [], acc => [acc.reverse]
  | c :: rest, acc =>
    if c = '|' then acc.reverse :: splitOnBar rest [] else splitOnBar rest (c :: acc)

end PyStr

namespace WebappPages

/-!
Embedding of `frontend/scripts/test-webapp-pages.py`.  A browser page state
is abstracted to the facts the script's locators and content checks observe:
whether each queried element exists, whether the home page content carries
one of the expected markers, whether `/api/health` answers with `healthy`,
and whether the home page produced console errors.
-/

/-- Observable state of the web application, as seen through the script's
Playwright locators and content checks. -/
structure PageState where
  homeContentOk : Bool
  hasEmailInput : Bool
  hasPasswordInput : Bool
  hasMagicLink : Bool
  hasSubmitButton : Bool
  healthContainsHealthy : Bool
  consoleErrorFree : Bool
deriving Repr, DecidableEq

/-- Embedding of `test_home_page`: log lines and returned value. -/
def test_home_page (p : PageState) : List String × Bool :=
  if p.homeContentOk then (["Home page loaded successfully"], true)
  else (["Home page content missing"], false)

/-- Embedding of `test_login_page`: log lines and returned value.  The
element checks only print; both exits of the function return `True`. -/
def test_login_page (p : PageState) : List String × Bool :=
  let emailLog :=
    if p.hasEmailInput then ["Email input field found"]
    else ["Email input field not found"]
  let secondLog :=
    if p.hasPasswordInput then ["Password input field found"]
    else if p.hasMagicLink then ["Magic link option found"]
    else []
  if p.hasSubmitButton then (emailLog ++ secondLog ++ ["Submit button found"], true)
  else (emailLog ++ secondLog ++ ["Login form elements incomplete"], true)

/-- Embedding of `test_api_endpoints`: log lines and returned value.  The
health check only prints; both branches fall through to `return True`. -/
def test_api_endpoints (p : PageState) : List String × Bool :=
  if p.healthContainsHealthy then (["/api/health returns healthy status"], true)
  else (["/api/health check failed"], true)

/-- Embedding of `test_page_renders_without_errors`: returns whether the
console error list stayed empty. -/
def test_page_renders_without_errors (p : PageState) : Bool :=
  p.consoleErrorFree

/-- Result of `attempt_login` (test 5), abstracted: redirected to a
dashboard, magic-link verification required, or anything else. -/
inductive LoginOutcome
  | success
  | magicLink
  | failed
deriving Repr, DecidableEq

/-- The `results` dictionary of `main`. -/
structure TestResults where
  passed : Nat
  failed : Nat
  warnings : Nat
deriving Repr, DecidableEq

/-- One `if …: passed += 1 else: failed += 1` accounting step of `main`. -/
def tally (r : TestResults) (ok : Bool) : TestResults :=
  if ok then { r with passed := r.passed + 1 }
  else { r with failed := r.failed + 1 }

/-- Embedding of the counting done by `main`'s try block: tests 1–3 feed
`tally`, test 4 and the login attempt only ever add to `passed` or
`warnings`.  The login attempt's browser interaction is abstracted to its
`LoginOutcome`. -/
def main (p : PageState) (login : LoginOutcome) : TestResults :=
  let r0 : TestResults := { passed := 0, failed := 0, warnings := 0 }
  let r1 := tally r0 (test_home_page p).2
  let r2 := tally r1 (test_login_page p).2
  let r3 := tally r2 (test_api_endpoints p).2
  let r4 :=
    if test_page_renders_without_errors p then { r3 with passed := r3.passed + 1 }
    else { r3 with warnings := r3.warnings + 1 }
  match login with
  | .success => { r4 with passed := r4.passed + 1 }
  | .magicLink => { r4 with warnings := r4.warnings + 1 }
  | .failed => { r4 with warnings := r4.warnings + 1 }

end WebappPages

namespace ConvertToDocx

open PyStr

/-!
Embedding of `convert_to_docx.py`.
-/

/-- The two conversion methods `check_dependencies` can select. -/
inductive Converter
  | pypandoc
  | docx
deriving Repr, DecidableEq

/-- The Python environment and filesystem facts `main` depends on: which
packages import successfully, whether the pandoc executable is found,
which input files exist, and whether converting a given file succeeds. -/
structure SysEnv where
  pypandocInstalled : Bool
  pandocAvailable : Bool
  docxInstalled : Bool
  markdownInstalled : Bool
  fileExists : String → Bool
  convertOk : Converter → String → Bool

/-- Embedding of `check_dependencies`: prefer pypandoc (which also needs
the pandoc executable); on any failure there fall through to the
python-docx + markdown fallback; otherwise report no method available. -/
def check_dependencies (e : SysEnv) : Option Converter :=
  if e.pypandocInstalled && e.pandocAvailable then some .pypandoc
  else if e.docxInstalled && e.markdownInstalled then some .docx
  else none

/-- The hard-coded `files_to_convert` list of `main`. -/
def files_to_convert : List (String × String) :=
  [("ZENORA_COMPLETE_FLOWS.md", "ZENORA_COMPLETE_FLOWS.docx"),
   ("ZENORA_COMPLETE_FEATURES.md", "ZENORA_COMPLETE_FEATURES.docx")]

/-- Embedding of `main`'s conversion loop: a missing input file is skipped
(neither counter moves); otherwise the chosen converter's result feeds the
`success_count`/`failed_count` pair. -/
def conversionCounts (e : SysEnv) (c : Converter) : Nat × Nat :=
  files_to_convert.foldl
    (fun acc fp =>
      if e.fileExists fp.1 then
        if e.convertOk c fp.1 then (acc.1 + 1, acc.2) else (acc.1, acc.2 + 1)
      else acc)
    (0, 0)

/-- Embedding of `main`'s control flow: `some code` means `sys.exit(code)`
was called, `none` means `main` returned normally. -/
def main (e : SysEnv) : Option Nat :=
  match check_dependencies e with
  | none => some 1
  | some c =>
    if 0 < (conversionCounts e c).1 then none else some 1

/-- One element added to the python-docx `Document` by the fallback
converter: a heading with its level, or a paragraph with its optional named
style. -/
inductive DocElem
  | heading (level : Nat) (text : String)
  | paragraph (style : Option String) (text : String)
deriving Repr, DecidableEq

/-- The loop state of `convert_with_docx`: the document built so far, the
`in_code_block` flag and the accumulated `code_block_content`. -/
structure ConvState where
  doc : List DocElem
  in_code_block : Bool
  code_block_content : List String
deriving Repr, DecidableEq

/-- The paragraph text `convert_with_docx` adds for a horizontal rule:
`'_' * 50`. -/
def underscoreRule : String :=
  String.mk (List.replicate 50 '_')

/-- The table-row text: `' | '.join(cell.strip() for cell in
line.split('|')[1:-1])`. -/
def tableRowText (line : String) : String :=
  String.intercalate " | "
    ((((splitOnBar line.data []).drop 1).dropLast).map (fun cl => pyStrip (String.mk cl)))

/-- Embedding of one iteration of `convert_with_docx`'s line loop.  The
three inline rewrites `re.sub(r'\*\*(.+?)\*\*', …)`, `re.sub(r'\*(.+?)\*',
…)` and the link rewrite are abstracted as the parameters `sb`, `si` and
`sl`; the claims checked here hold for every choice of them. -/
def procLine (sb si sl : String → String) (st : ConvState) (line : String) :
    ConvState :=
  if pyStartsWith line "```" then
    if st.in_code_block then
      { doc := st.doc ++
          [.paragraph (some "Intense Quote")
            (String.intercalate "\n" st.code_block_content)]
        in_code_block := false
        code_block_content := [] }
    else
      { st with in_code_block := true }
  else if st.in_code_block then
    { st with code_block_content := st.code_block_content ++ [line] }
  else if pyStartsWith line "# " then
    { st with doc := st.doc ++ [.heading 1 (pyDrop line 2)] }
  else if pyStartsWith line "## " then
    { st with doc := st.doc ++ [.heading 2 (pyDrop line 3)] }
  else if pyStartsWith line "### " then
    { st with doc := st.doc ++ [.heading 3 (pyDrop line 4)] }
  else if pyStartsWith line "#### " then
    { st with doc := st.doc ++ [.heading 4 (pyDrop line 5)] }
  else if pyStartsWith line "---" then
    { st with doc := st.doc ++ [.paragraph none underscoreRule] }
  else if pyStartsWith line "- " || pyStartsWith line "* " then
    { st with doc := st.doc ++ [.paragraph (some "List Bullet") (si (sb (pyDrop line 2)))] }
  else if isNumberedItem line then
    { st with doc := st.doc ++
        [.paragraph (some "List Number") (si (sb (dropNumberedItemMark line)))] }
  else if pyContainsChar line '|' && pyStartsWith (pyStrip line) "|" then
    if isTableSeparatorLine line then st
    else { st with doc := st.doc ++ [.paragraph none (tableRowText line)] }
  else if pyStrip line ≠ "" then
    { st with doc := st.doc ++ [.paragraph none (sl (si (sb line)))] }
  else st

/-- Embedding of `convert_with_docx`'s whole line loop over the input file's
lines (the file has already been read and split on newlines). -/
def convertLines (sb si sl : String → String) (lines : List String) : ConvState :=
  lines.foldl (procLine sb si sl) { doc := [], in_code_block := false, code_block_content := [] }

/-- The document `convert_with_docx` saves: whatever the loop added to
`doc` — the `code_block_content` buffer is not consulted after the loop. -/
def savedDocument (sb si sl : String → String) (lines : List String) : List DocElem :=
  (convertLines sb si sl lines).doc

end ConvertToDocx

namespace Orchestrator

theorem terminate_terminated (p : LaunchedProcess) :
    (terminate p).terminated = true := by
  unfold terminate
  by_cases h : p.terminated
  · simp [h]
  · simp [h]

theorem terminate_idem (p : LaunchedProcess) :
    terminate (terminate p) = terminate p := by
  unfold terminate
  by_cases h : p.terminated
  · simp [h]
  · simp [h]

theorem teardown_allTerminated (l : List LaunchedProcess) :
    allTerminated (teardown l) := by
  intro p hp
  rcases List.mem_map.mp hp with ⟨q, _, rfl⟩
  exact terminate_terminated q

/-- C6: teardown is idempotent — a second teardown pass over an
already-torn-down `LaunchedProcess` set leaves the set unchanged and sends
no termination signal at all (so no handle is terminated or closed twice,
and nothing can error on the second pass). -/
theorem teardown_idempotent (l : List LaunchedProcess) :
    teardown (teardown l) = teardown l ∧ teardownSignals (teardown l) = [] := by
  constructor
  · unfold teardown
    rw [List.map_map]
    exact List.map_congr_left (fun p _ => terminate_idem p)
  · unfold teardownSignals
    have h : (teardown l).filter (fun p => !p.terminated) = [] := by
      apply List.filter_eq_nil_iff.mpr
      intro p hp
      simp [teardown_allTerminated l p hp]
    rw [h]
    rfl

theorem step_tick_eq (specs : List ServiceSpec) (env : Env) (s : OrchState) :
    step specs env s .tick = stepTick specs env s := rfl

theorem step_signal_eq (specs : List ServiceSpec) (env : Env) (s : OrchState)
    (sig : SigType) : step specs env s (.signal sig) = stepSignal sig s := rfl

theorem stepTick_idle {specs : List ServiceSpec} {env : Env} {s : OrchState}
    (h : s.phase = .idle) :
    stepTick specs env s = { s with phase := .startingServices, nextService := 0 } := by
  unfold stepTick
  rw [h]

theorem stepTick_starting_ready {specs : List ServiceSpec} {env : Env} {s : OrchState}
    (h : s.phase = .startingServices) (h2 : s.nextService < specs.length)
    (h3 : env.ready s.nextService = true) :
    stepTick specs env s =
      { s with launched := s.launched ++ [launchAt specs s.nextService]
               nextService := s.nextService + 1 } := by
  unfold stepTick
  rw [h]
  simp [h2, h3]

theorem stepTick_starting_notReady {specs : List ServiceSpec} {env : Env} {s : OrchState}
    (h : s.phase = .startingServices) (h2 : s.nextService < specs.length)
    (h3 : env.ready s.nextService = false) :
    stepTick specs env s =
      { s with launched := s.launched ++ [launchAt specs s.nextService]
               phase := .tearingDown
               failureStage := .serviceReadiness
               outcome := some readinessFailureExitCode } := by
  unfold stepTick
  rw [h]
  simp [h2, h3]

theorem stepTick_starting_full {specs : List ServiceSpec} {env : Env} {s : OrchState}
    (h : s.phase = .startingServices) (h2 : ¬ s.nextService < specs.length) :
    stepTick specs env s = { s with phase := .runningCommand } := by
  unfold stepTick
  rw [h]
  simp [h2]

theorem stepTick_running {specs : List ServiceSpec} {env : Env} {s : OrchState}
    (h : s.phase = .runningCommand) :
    stepTick specs env s =
      { s with cmdRuns := s.cmdRuns + 1
               outcome := some env.cmdExit
               phase := .tearingDown } := by
  unfold stepTick
  rw [h]

theorem stepTick_tearing {specs : List ServiceSpec} {env : Env} {s : OrchState}
    (h : s.phase = .tearingDown) :
    stepTick specs env s = { s with launched := teardown s.launched, phase := .done } := by
  unfold stepTick
  rw [h]

theorem stepTick_done {specs : List ServiceSpec} {env : Env} {s : OrchState}
    (h : s.phase = .done) : stepTick specs env s = s := by
  unfold stepTick
  rw [h]

theorem stepSignal_done {s : OrchState} {sig : SigType} (h : s.phase = .done) :
    stepSignal sig s = s := by
  unfold stepSignal
  rw [h]

theorem stepSignal_notDone {s : OrchState} {sig : SigType} (h : s.phase ≠ .done) :
    stepSignal sig s =
      { s with phase := .tearingDown
               outcome := some (reservedSignalExitCode sig) } := by
  unfold stepSignal
  cases hp : s.phase
  case done => exact absurd hp h
  all_goals rfl

theorem ticks_succ (specs : List ServiceSpec) (env : Env) (n : Nat) (s : OrchState) :
    ticks specs env (n + 1) s = ticks specs env n (step specs env s .tick) := rfl

theorem ticks_add (specs : List ServiceSpec) (env : Env) (a b : Nat) (s : OrchState) :
    ticks specs env (a + b) s = ticks specs env b (ticks specs env a s) := by
  induction a generalizing s with
  | zero =>
    have h : 0 + b = b := by omega
    rw [h]
    rfl
  | succ a iha =>
    have h : a + 1 + b = (a + b) + 1 := by omega
    rw [h, ticks_succ, iha]
    rfl

theorem step_done {specs : List ServiceSpec} {env : Env} {s : OrchState}
    (h : s.phase = .done) (i : OrchInput) : step specs env s i = s := by
  cases i with
  | tick => rw [step_tick_eq, stepTick_done h]
  | signal sig => rw [step_signal_eq, stepSignal_done h]

theorem ticks_done {specs : List ServiceSpec} {env : Env} {s : OrchState}
    (h : s.phase = .done) : ∀ n, ticks specs env n s = s := by
  intro n
  induction n with
  | zero => rfl
  | succ n ihn => rw [ticks_succ, step_done h, ihn]

theorem ticks3_from_full {specs : List ServiceSpec} {env : Env} {s : OrchState}
    (h : s.phase = .startingServices) (h2 : ¬ s.nextService < specs.length) :
    ticks specs env 3 s =
      { s with phase := .done
               launched := teardown s.launched
               cmdRuns := s.cmdRuns + 1
               outcome := some env.cmdExit } := by
  rw [ticks_succ, step_tick_eq, stepTick_starting_full h h2,
    ticks_succ, step_tick_eq, stepTick_running (by simp),
    ticks_succ, step_tick_eq, stepTick_tearing (by simp)]
  rfl

theorem ticks2_from_running {specs : List ServiceSpec} {env : Env} {s : OrchState}
    (h : s.phase = .runningCommand) :
    ticks specs env 2 s =
      { s with phase := .done
               launched := teardown s.launched
               cmdRuns := s.cmdRuns + 1
               outcome := some env.cmdExit } := by
  rw [ticks_succ, step_tick_eq, stepTick_running h,
    ticks_succ, step_tick_eq, stepTick_tearing (by simp)]
  rfl

theorem ticks1_from_tearing {specs : List ServiceSpec} {env : Env} {s : OrchState}
    (h : s.phase = .tearingDown) :
    ticks specs env 1 s = { s with launched := teardown s.launched, phase := .done } := by
  rw [ticks_succ, step_tick_eq, stepTick_tearing h]
  rfl

theorem ticks_tearing_done {specs : List ServiceSpec} {env : Env} {s : OrchState}
    (h : s.phase = .tearingDown) (n : Nat) :
    (ticks specs env (n + 1) s).phase = .done := by
  rw [ticks_succ, step_tick_eq, stepTick_tearing h,
    @ticks_done specs env { s with launched := teardown s.launched, phase := .done } (by simp) n]

theorem step_preserves_drain {specs : List ServiceSpec} {env : Env} {s : OrchState}
    (i : OrchInput) (h : s.phase = .done → allTerminated s.launched) :
    (step specs env s i).phase = .done → allTerminated (step specs env s i).launched := by
  cases i with
  | tick =>
    cases hp : s.phase with
    | idle =>
      rw [step_tick_eq, stepTick_idle hp]
      simp
    | startingServices =>
      rw [step_tick_eq]
      by_cases h2 : s.nextService < specs.length
      · cases h3 : env.ready s.nextService
        · rw [stepTick_starting_notReady hp h2 h3]
          simp
        · rw [stepTick_starting_ready hp h2 h3]
          simp [hp]
      · rw [stepTick_starting_full hp h2]
        simp
    | runningCommand =>
      rw [step_tick_eq, stepTick_running hp]
      simp
    | tearingDown =>
      rw [step_tick_eq, stepTick_tearing hp]
      intro _
      exact teardown_allTerminated _
    | done =>
      rw [step_done hp]
      exact h
  | signal sig =>
    by_cases hp : s.phase = .done
    · rw [step_done hp]
      exact h
    · rw [step_signal_eq, stepSignal_notDone hp]
      simp

theorem foldl_step_drain {specs : List ServiceSpec} {env : Env} :
    ∀ (ins : List OrchInput) (s : OrchState),
      (s.phase = .done → allTerminated s.launched) →
      ((ins.foldl (step specs env) s).phase = .done →
        allTerminated (ins.foldl (step specs env) s).launched) := by
  intro ins
  induction ins with
  | nil => intro s h; exact h
  | cons i ins ih =>
    intro s h
    exact ih (step specs env s i) (step_preserves_drain i h)

theorem ticks_drain {specs : List ServiceSpec} {env : Env} :
    ∀ (n : Nat) (s : OrchState),
      (s.phase = .done → allTerminated s.launched) →
      ((ticks specs env n s).phase = .done →
        allTerminated (ticks specs env n s).launched) := by
  intro n
  induction n with
  | zero => intro s h; exact h
  | succ n ih =>
    intro s h
    rw [ticks_succ]
    exact ih (step specs env s .tick) (step_preserves_drain .tick h)

theorem ticks_starting_done {specs : List ServiceSpec} {env : Env} :
    ∀ d j (s : OrchState), specs.length - j = d → s.phase = .startingServices →
      s.nextService = j → (ticks specs env (d + 3) s).phase = .done := by
  intro d
  induction d with
  | zero =>
    intro j s hd hph hns
    have h2 : ¬ s.nextService < specs.length := by omega
    have h03 : (0 : Nat) + 3 = 3 := by omega
    rw [h03, ticks3_from_full hph h2]
  | succ d ih =>
    intro j s hd hph hns
    have hjlt : j < specs.length := by omega
    have h2 : s.nextService < specs.length := by omega
    have hfuel : d + 1 + 3 = (d + 3) + 1 := by omega
    rw [hfuel, ticks_succ, step_tick_eq]
    cases h3 : env.ready s.nextService
    · rw [stepTick_starting_notReady hph h2 h3]
      have hfuel2 : d + 3 = (d + 2) + 1 := by omega
      rw [hfuel2]
      exact ticks_tearing_done (by simp) (d + 2)
    · rw [stepTick_starting_ready hph h2 h3]
      exact ih (j + 1) _ (by omega) (by simp [hph]) (by simp [hns])

theorem ticks_reaches_done (specs : List ServiceSpec) (env : Env) (s : OrchState) :
    (ticks specs env (specs.length + 4) s).phase = .done := by
  cases hp : s.phase
  case done => rw [ticks_done hp]; exact hp
  case tearingDown =>
    have hfuel : specs.length + 4 = (specs.length + 3) + 1 := by omega
    rw [hfuel]
    exact ticks_tearing_done hp (specs.length + 3)
  case runningCommand =>
    have hfuel : specs.length + 4 = 2 + (specs.length + 2) := by omega
    rw [hfuel, ticks_add, ticks2_from_running hp, ticks_done (by simp)]
  case idle =>
    have hfuel : specs.length + 4 = ((specs.length - 0) + 3) + 1 := by omega
    rw [hfuel, ticks_succ, step_tick_eq, stepTick_idle hp]
    exact ticks_starting_done (specs.length - 0) 0 _ rfl (by simp) (by simp)
  case startingServices =>
    have hd : specs.length - s.nextService ≤ specs.length := by omega
    have hfuel : specs.length + 4 =
        ((specs.length - s.nextService) + 3) +
          ((specs.length - (specs.length - s.nextService)) + 1) := by omega
    rw [hfuel, ticks_add]
    have hdone := @ticks_starting_done specs env (specs.length - s.nextService)
      s.nextService s rfl hp rfl
    rw [ticks_done hdone]
    exact hdone

theorem run_ok_from (specs : List ServiceSpec) (env : Env)
    (hready : ∀ i, i < specs.length → env.ready i = true) :
    ∀ d j (s : OrchState), specs.length - j = d → j ≤ specs.length →
      s.phase = .startingServices → s.nextService = j →
      ticks specs env (d + 3) s =
        { s with phase := .done
                 nextService := specs.length
                 launched := teardown (s.launched ++ launchSeg specs j d)
                 cmdRuns := s.cmdRuns + 1
                 outcome := some env.cmdExit } := by
  intro d
  induction d with
  | zero =>
    intro j s hd hj hph hns
    have hj2 : j = specs.length := by omega
    subst hj2
    have h2 : ¬ s.nextService < specs.length := by omega
    have h03 : (0 : Nat) + 3 = 3 := by omega
    rw [h03, ticks3_from_full hph h2]
    obtain ⟨ph, ns, l, cr, oc, fs⟩ := s
    simp only at hns
    subst hns
    simp [launchSeg]
  | succ d ih =>
    intro j s hd hj hph hns
    have h2 : s.nextService < specs.length := by omega
    have h3 : env.ready s.nextService = true := hready _ (by omega)
    have hfuel : d + 1 + 3 = (d + 3) + 1 := by omega
    rw [hfuel, ticks_succ, step_tick_eq, stepTick_starting_ready hph h2 h3]
    rw [ih (j + 1) _ (by omega) (by omega) (by simp [hph]) (by simp [hns])]
    obtain ⟨ph, ns, l, cr, oc, fs⟩ := s
    simp only at hns
    subst hns
    simp [launchSeg, List.append_assoc]

theorem run_fail_from (specs : List ServiceSpec) (env : Env) (k : Nat)
    (hk : k < specs.length) (hfail : env.ready k = false) :
    ∀ d j (s : OrchState), k - j = d → j ≤ k →
      (∀ i, j ≤ i → i < k → env.ready i = true) →
      s.phase = .startingServices → s.nextService = j →
      ticks specs env (d + 2) s =
        { s with phase := .done
                 nextService := k
                 launched := teardown (s.launched ++ launchSeg specs j (d + 1))
                 failureStage := .serviceReadiness
                 outcome := some readinessFailureExitCode } := by
  intro d
  induction d with
  | zero =>
    intro j s hd hj hready hph hns
    have hj2 : j = k := by omega
    subst hj2
    have h2 : s.nextService < specs.length := by omega
    have h3 : env.ready s.nextService = false := by rw [hns]; exact hfail
    have h02 : (0 : Nat) + 2 = 1 + 1 := by omega
    rw [h02, ticks_succ, step_tick_eq, stepTick_starting_notReady hph h2 h3,
      ticks1_from_tearing (by simp)]
    obtain ⟨ph, ns, l, cr, oc, fs⟩ := s
    simp only at hns
    subst hns
    simp [launchSeg]
  | succ d ih =>
    intro j s hd hj hready hph hns
    have hjk : j < k := by omega
    have h2 : s.nextService < specs.length := by omega
    have h3 : env.ready s.nextService = true := by
      rw [hns]; exact hready j (by omega) hjk
    have hfuel : d + 1 + 2 = (d + 2) + 1 := by omega
    rw [hfuel, ticks_succ, step_tick_eq, stepTick_starting_ready hph h2 h3]
    rw [ih (j + 1) _ (by omega) (by omega) (fun i hi1 hi2 => hready i (by omega) hi2)
      (by simp [hph]) (by simp [hns])]
    obtain ⟨ph, ns, l, cr, oc, fs⟩ := s
    simp only at hns
    subst hns
    simp [launchSeg, List.append_assoc]

theorem ticks_one (specs : List ServiceSpec) (env : Env) (s : OrchState) :
    ticks specs env 1 s = step specs env s .tick := rfl

theorem terminate_processId (p : LaunchedProcess) :
    (terminate p).processId = p.processId := by
  unfold terminate
  by_cases h : p.terminated <;> simp [h]

theorem terminate_spec (p : LaunchedProcess) :
    (terminate p).spec = p.spec := by
  unfold terminate
  by_cases h : p.terminated <;> simp [h]

theorem teardown_map_processId (l : List LaunchedProcess) :
    (teardown l).map (fun p => p.processId) = l.map (fun p => p.processId) := by
  unfold teardown
  rw [List.map_map]
  exact List.map_congr_left (fun p _ => terminate_processId p)

theorem teardown_map_spec (l : List LaunchedProcess) :
    (teardown l).map (fun p => p.spec) = l.map (fun p => p.spec) := by
  unfold teardown
  rw [List.map_map]
  exact List.map_congr_left (fun p _ => terminate_spec p)

theorem launchSeg_map_processId (specs : List ServiceSpec) :
    ∀ c j, (launchSeg specs j c).map (fun p => p.processId) = List.range' j c := by
  intro c
  induction c with
  | zero => intro j; rfl
  | succ c ih =>
    intro j
    simp only [launchSeg, List.map_cons, launchAt, ih (j + 1), List.range']

theorem launchSeg_map_spec (specs : List ServiceSpec) :
    ∀ c j, (launchSeg specs j c).map (fun p => p.spec) =
      (List.range' j c).map (fun i => specs.getD i default) := by
  intro c
  induction c with
  | zero => intro j; rfl
  | succ c ih =>
    intro j
    simp only [launchSeg, List.map_cons, launchAt, ih (j + 1), List.range']

/-- C1: the `LaunchedProcess` set only grows during `StartingServices` (every
transition from that phase appends to it), and for every input
sequence — uninterrupted run, readiness failures decided by `env`, and
operator signals injected at arbitrary points — the orchestrator reaches
`Done` and every entry of the set has been terminated (passed through
teardown) by then. -/
theorem launched_monotone_and_drained (specs : List ServiceSpec) (env : Env) :
    (∀ (s : OrchState) (i : OrchInput), s.phase = .startingServices →
      ∃ tail, (step specs env s i).launched = s.launched ++ tail) ∧
    (∀ ins : List OrchInput,
      (ticks specs env (specs.length + 4) (ins.foldl (step specs env) initState)).phase
        = .done ∧
      allTerminated
        (ticks specs env (specs.length + 4) (ins.foldl (step specs env) initState)).launched) := by
  constructor
  · intro s i hph
    cases i with
    | tick =>
      rw [step_tick_eq]
      by_cases h2 : s.nextService < specs.length
      · cases h3 : env.ready s.nextService
        · rw [stepTick_starting_notReady hph h2 h3]
          exact ⟨[launchAt specs s.nextService], rfl⟩
        · rw [stepTick_starting_ready hph h2 h3]
          exact ⟨[launchAt specs s.nextService], rfl⟩
      · rw [stepTick_starting_full hph h2]
        exact ⟨[], by simp⟩
    | signal sig =>
      rw [step_signal_eq, stepSignal_notDone (by rw [hph]; intro hc; cases hc)]
      exact ⟨[], by simp⟩
  · intro ins
    have hdone := ticks_reaches_done specs env (ins.foldl (step specs env) initState)
    refine ⟨hdone, ?_⟩
    have hinit : initState.phase = .done → allTerminated initState.launched := by
      intro hc
      cases hc
    exact ticks_drain _ _ (foldl_step_drain ins initState hinit) hdone

/-- Witness for C1: one transition out of `StartingServices` extends the
launched list, and a run hit by an interrupt signal still ends in `Done`
with every launched process terminated. -/
theorem launched_monotone_and_drained_witness :
    (∃ tail,
      (step [{ command := "serve-stub", port := 9001, timeoutSeconds := 5 }]
          { ready := fun _ => true, cmdExit := 0 }
          { phase := .startingServices, nextService := 0, launched := [],
            cmdRuns := 0, outcome := none, failureStage := .noFailure }
          .tick).launched = [] ++ tail) ∧
    ((ticks [{ command := "serve-stub", port := 9001, timeoutSeconds := 5 }]
        { ready := fun _ => true, cmdExit := 0 } 5
        ([OrchInput.signal .interrupt].foldl
          (step [{ command := "serve-stub", port := 9001, timeoutSeconds := 5 }]
            { ready := fun _ => true, cmdExit := 0 }) initState)).phase = .done ∧
      allTerminated
        (ticks [{ command := "serve-stub", port := 9001, timeoutSeconds := 5 }]
          { ready := fun _ => true, cmdExit := 0 } 5
          ([OrchInput.signal .interrupt].foldl
            (step [{ command := "serve-stub", port := 9001, timeoutSeconds := 5 }]
              { ready := fun _ => true, cmdExit := 0 }) initState)).launched) :=
  ⟨(launched_monotone_and_drained _ _).1 _ .tick rfl,
   (launched_monotone_and_drained _ _).2 [OrchInput.signal .interrupt]⟩

/-- C2: when every declared service becomes ready within its timeout, the
run reaches `Done` having invoked the target command exactly once, and the
result exit code is the target command's own exit code. -/
theorem ready_run_propagates_command_exit (specs : List ServiceSpec) (env : Env)
    (hready : ∀ i, i < specs.length → env.ready i = true) :
    (run specs env).phase = .done ∧
    (run specs env).cmdRuns = 1 ∧
    (run specs env).outcome = some env.cmdExit := by
  unfold run
  have hcomp := run_ok_from specs env hready specs.length 0
    { initState with phase := .startingServices, nextService := 0 }
    (by omega) (by omega) rfl rfl
  have hfuel : specs.length + 4 = (specs.length + 3) + 1 := by omega
  rw [hfuel, ticks_succ, step_tick_eq, stepTick_idle rfl, hcomp]
  simp [initState]

/-- Witness for C2: a one-service list whose service is always ready, with
a target command exiting 0. -/
theorem ready_run_propagates_command_exit_witness :
    (run [{ command := "serve-stub", port := 9001, timeoutSeconds := 5 }]
        { ready := fun _ => true, cmdExit := 0 }).phase = .done ∧
    (run [{ command := "serve-stub", port := 9001, timeoutSeconds := 5 }]
        { ready := fun _ => true, cmdExit := 0 }).cmdRuns = 1 ∧
    (run [{ command := "serve-stub", port := 9001, timeoutSeconds := 5 }]
        { ready := fun _ => true, cmdExit := 0 }).outcome = some 0 :=
  ready_run_propagates_command_exit _ _ (by decide)

/-- C3: when service `k` is the first that never becomes ready, the run
reaches `Done` having launched exactly services `0..k` (their process ids
and specs in declaration order), never invoking the target command, with
every launched process terminated, the failure stage set to
`serviceReadiness` and the reserved readiness-failure exit code. -/
theorem readiness_failure_stops_and_drains (specs : List ServiceSpec) (env : Env)
    (k : Nat) (hk : k < specs.length)
    (hbefore : ∀ i, i < k → env.ready i = true)
    (hfail : env.ready k = false) :
    (run specs env).phase = .done ∧
    (run specs env).cmdRuns = 0 ∧
    (run specs env).launched.map (fun p => p.processId) = List.range (k + 1) ∧
    (run specs env).launched.map (fun p => p.spec) =
      (List.range (k + 1)).map (fun i => specs.getD i default) ∧
    allTerminated (run specs env).launched ∧
    (run specs env).failureStage = .serviceReadiness ∧
    (run specs env).outcome = some readinessFailureExitCode := by
  unfold run
  have hcomp := run_fail_from specs env k hk hfail k 0
    { initState with phase := .startingServices, nextService := 0 }
    (by omega) (by omega) (fun i _ hik => hbefore i hik) rfl rfl
  have hfuel : specs.length + 4 = (1 + (k + 2)) + (specs.length + 1 - k) := by omega
  rw [hfuel, ticks_add, ticks_add, ticks_one, step_tick_eq, stepTick_idle rfl, hcomp,
    ticks_done (by simp)]
  refine ⟨by simp, by simp [initState], ?_, ?_, by intro p hp; exact teardown_allTerminated _ p hp,
    by simp, by simp⟩
  · simp only
    rw [teardown_map_processId]
    simp only [initState, List.nil_append]
    rw [launchSeg_map_processId, List.range_eq_range']
  · simp only
    rw [teardown_map_spec]
    simp only [initState, List.nil_append]
    rw [launchSeg_map_spec]
    rw [List.range_eq_range']

/-- Witness for C3: two declared services, the first of which never becomes
ready — only it is launched, the target command never runs, and it is torn
down. -/
theorem readiness_failure_stops_and_drains_witness :
    (run [{ command := "svc-a", port := 9001, timeoutSeconds := 2 },
          { command := "svc-b", port := 9002, timeoutSeconds := 2 }]
        { ready := fun _ => false, cmdExit := 0 }).cmdRuns = 0 ∧
    (run [{ command := "svc-a", port := 9001, timeoutSeconds := 2 },
          { command := "svc-b", port := 9002, timeoutSeconds := 2 }]
        { ready := fun _ => false, cmdExit := 0 }).launched.map (fun p => p.processId)
      = List.range 1 ∧
    allTerminated
      (run [{ command := "svc-a", port := 9001, timeoutSeconds := 2 },
            { command := "svc-b", port := 9002, timeoutSeconds := 2 }]
          { ready := fun _ => false, cmdExit := 0 }).launched :=
  ⟨(readiness_failure_stops_and_drains _ _ 0 (by decide) (by decide) rfl).2.1,
   (readiness_failure_stops_and_drains _ _ 0 (by decide) (by decide) rfl).2.2.1,
   (readiness_failure_stops_and_drains _ _ 0 (by decide) (by decide) rfl).2.2.2.2.1⟩

/-- C7: an operator interrupt/terminate signal received in any non-terminal
state transitions the machine to `TearingDown` at once, and however many
control-thread steps follow, the run ends in `Done` with the distinguished
reserved exit code of that signal type (not the target command's own code),
with all launched processes terminated; the two reserved codes are
distinct. -/
theorem signal_forces_teardown_and_reserved_exit (specs : List ServiceSpec)
    (env : Env) (s : OrchState) (sig : SigType) (h : s.phase ≠ .done) :
    (step specs env s (.signal sig)).phase = .tearingDown ∧
    (∀ n, (ticks specs env (n + 1) (step specs env s (.signal sig))).phase = .done ∧
      (ticks specs env (n + 1) (step specs env s (.signal sig))).outcome =
        some (reservedSignalExitCode sig) ∧
      allTerminated
        (ticks specs env (n + 1) (step specs env s (.signal sig))).launched) ∧
    reservedSignalExitCode .interrupt ≠ reservedSignalExitCode .terminate := by
  rw [step_signal_eq, stepSignal_notDone h]
  refine ⟨by simp, ?_, by decide⟩
  intro n
  rw [ticks_succ, step_tick_eq, stepTick_tearing (by simp), ticks_done (by simp)]
  exact ⟨by simp, by simp, fun p hp => teardown_allTerminated _ p hp⟩

/-- Witness for C7: an interrupt delivered in the initial `Idle` state. -/
theorem signal_forces_teardown_and_reserved_exit_witness :
    (step [] { ready := fun _ => true, cmdExit := 7 } initState
      (.signal .interrupt)).phase = .tearingDown ∧
    (ticks [] { ready := fun _ => true, cmdExit := 7 } 1
      (step [] { ready := fun _ => true, cmdExit := 7 } initState
        (.signal .interrupt))).outcome = some (reservedSignalExitCode .interrupt) :=
  ⟨(signal_forces_teardown_and_reserved_exit [] _ initState .interrupt (by decide)).1,
   ((signal_forces_teardown_and_reserved_exit [] _ initState .interrupt (by decide)).2.1 0).2.1⟩

theorem waitLoop_no_error (probe : Nat → ProbeResult) :
    ∀ d T e a, T - e = d → ∀ err, waitLoop probe T e a ≠ Except.error err := by
  intro d
  induction d using Nat.strong_induction_on with
  | _ d ih =>
    intro T e a hd err
    rw [waitLoop]
    cases hp : probe a with
    | success => simp [rawConnect]
    | refused =>
      simp only [rawConnect]
      by_cases hlt : T < e + 5
      · simp [hlt]
      · rw [dif_neg hlt]
        exact ih (T - (e + 5)) (by omega) T (e + 5) (a + 1) rfl err
    | timedOut =>
      simp only [rawConnect]
      by_cases hlt : T < e + 5
      · simp [hlt]
      · rw [dif_neg hlt]
        exact ih (T - (e + 5)) (by omega) T (e + 5) (a + 1) rfl err

theorem waitLoop_timeout (probe : Nat → ProbeResult) (T : Nat)
    (hall : ∀ k, 5 * k ≤ T → probe k ≠ .success) :
    ∀ d a, 5 * a ≤ T → T - 5 * a = d → waitLoop probe T (5 * a) a = .ok false := by
  intro d
  induction d using Nat.strong_induction_on with
  | _ d ih =>
    intro a ha hd
    rw [waitLoop]
    cases hp : probe a with
    | success => exact absurd hp (hall a ha)
    | refused =>
      simp only [rawConnect]
      by_cases hlt : T < 5 * a + 5
      · simp [hlt]
      · rw [dif_neg hlt]
        have h5 : 5 * a + 5 = 5 * (a + 1) := by ring
        rw [h5]
        exact ih (T - 5 * (a + 1)) (by omega) (a + 1) (by omega) rfl
    | timedOut =>
      simp only [rawConnect]
      by_cases hlt : T < 5 * a + 5
      · simp [hlt]
      · rw [dif_neg hlt]
        have h5 : 5 * a + 5 = 5 * (a + 1) := by ring
        rw [h5]
        exact ih (T - 5 * (a + 1)) (by omega) (a + 1) (by omega) rfl

theorem waitLoop_success (probe : Nat → ProbeResult) (T k : Nat)
    (hk : 5 * k ≤ T) (hbefore : ∀ j, j < k → probe j ≠ .success)
    (hs : probe k = .success) :
    ∀ d a, a ≤ k → k - a = d → waitLoop probe T (5 * a) a = .ok true := by
  intro d
  induction d using Nat.strong_induction_on with
  | _ d ih =>
    intro a hak hd
    rw [waitLoop]
    by_cases hek : a = k
    · subst hek
      rw [hs]
      simp [rawConnect]
    · have hlt : a < k := lt_of_le_of_ne hak hek
      have hp := hbefore a hlt
      cases hpa : probe a with
      | success => exact absurd hpa hp
      | refused =>
        simp only [rawConnect]
        have hT : ¬ T < 5 * a + 5 := by omega
        rw [dif_neg hT]
        have h5 : 5 * a + 5 = 5 * (a + 1) := by ring
        rw [h5]
        exact ih (k - (a + 1)) (by omega) (a + 1) (by omega) rfl
      | timedOut =>
        simp only [rawConnect]
        have hT : ¬ T < 5 * a + 5 := by omega
        rw [dif_neg hT]
        have h5 : 5 * a + 5 = 5 * (a + 1) := by ring
        rw [h5]
        exact ih (k - (a + 1)) (by omega) (a + 1) (by omega) rfl

/-- C5: the readiness check never raises on refused or timed-out probes;
it returns `true` as soon as the first successful connect happens within
the timeout window, and `false` when no probe inside the window succeeds
(probe `k` runs at elapsed time `5 * k` tenths of a second; the window is
`10 * timeoutSeconds` tenths). -/
theorem waitReady_contract (net : String → Nat → Nat → ProbeResult)
    (host : String) (port : Nat) (t : Nat) :
    (∀ err, waitReady net host port t ≠ .error err) ∧
    (∀ k, 5 * k ≤ 10 * t → (∀ j, j < k → net host port j ≠ .success) →
      net host port k = .success → waitReady net host port t = .ok true) ∧
    ((∀ k, 5 * k ≤ 10 * t → net host port k ≠ .success) →
      waitReady net host port t = .ok false) := by
  refine ⟨?_, ?_, ?_⟩
  · intro err
    exact waitLoop_no_error (net host port) (10 * t) (10 * t) 0 0 rfl err
  · intro k h1 h2 h3
    exact waitLoop_success (net host port) (10 * t) k h1 h2 h3 k 0 (Nat.zero_le k) rfl
  · intro hall
    exact waitLoop_timeout (net host port) (10 * t) hall (10 * t) 0 (by omega) rfl

/-- Witness for C5: a port that accepts on the second probe is reported
ready; one that never accepts within the window is reported not ready; no
error escapes in either case. -/
theorem waitReady_contract_witness :
    waitReady (fun _ _ k => if k = 1 then ProbeResult.success else ProbeResult.refused)
        "localhost" 9001 1 ≠ Except.error "boom" ∧
    waitReady (fun _ _ k => if k = 1 then ProbeResult.success else ProbeResult.refused)
        "localhost" 9001 1 = .ok true ∧
    waitReady (fun _ _ _ => ProbeResult.refused) "localhost" 9001 1 = .ok false :=
  ⟨(waitReady_contract _ "localhost" 9001 1).1 "boom",
   (waitReady_contract _ "localhost" 9001 1).2.1 1 (by decide) (by decide) (by decide),
   (waitReady_contract _ "localhost" 9001 1).2.2 (fun k hk => by decide)⟩

/-- C4: an invocation whose service count differs from its port count, or
that supplies no target command, fails configuration parsing with a
`ConfigurationError`, and the top-level call spawns no service and never
invokes the target command. -/
theorem config_error_before_spawn (inv : Invocation) (env : Env)
    (h : inv.services.length ≠ inv.ports.length ∨ inv.targetCmd = []) :
    (∃ e, parseConfig inv = .error e) ∧
    orchestrate inv env =
      { exitCode := configErrorExitCode, launched := [], cmdRuns := 0 } := by
  have hmain : ∃ e, parseConfig inv = .error e := by
    unfold parseConfig
    rcases h with h | h
    · exact ⟨.countMismatch, by simp [h]⟩
    · by_cases h2 : inv.services.length = inv.ports.length
      · exact ⟨.missingTargetCommand, by simp [h2, h]⟩
      · exact ⟨.countMismatch, by simp [h2]⟩
  obtain ⟨e, he⟩ := hmain
  refine ⟨⟨e, he⟩, ?_⟩
  unfold orchestrate
  rw [he]

/-- Witness for C4 at a concrete mismatched invocation. -/
theorem config_error_before_spawn_witness :
    ((["sleep 5"] : List String).length ≠ ([] : List Nat).length ∨
      (["echo", "ok"] : List String) = []) ∧
    (∃ e, parseConfig
        { services := ["sleep 5"], ports := [], timeoutSeconds := 60,
          envPairs := [], targetCmd := ["echo", "ok"] } = .error e) ∧
    orchestrate
        { services := ["sleep 5"], ports := [], timeoutSeconds := 60,
          envPairs := [], targetCmd := ["echo", "ok"] }
        { ready := fun _ => true, cmdExit := 0 } =
      { exitCode := configErrorExitCode, launched := [], cmdRuns := 0 } :=
  ⟨Or.inl (by decide),
   config_error_before_spawn _ _ (Or.inl (by decide))⟩

end Orchestrator

namespace WebappPages

/-- C8: `test_login_page` and `test_api_endpoints` return `True` for every
page state, so in `main` the `failed` counter is driven by the home-page
test alone — the two functions can never increment it. -/
theorem login_api_tests_always_pass :
    ∀ p : PageState,
      (test_login_page p).2 = true ∧
      (test_api_endpoints p).2 = true ∧
      ∀ lo : LoginOutcome,
        (main p lo).failed = (if (test_home_page p).2 then 0 else 1) := by
  intro p
  have hl : (test_login_page p).2 = true := by
    cases hsb : p.hasSubmitButton <;> simp [test_login_page, hsb]
  have ha : (test_api_endpoints p).2 = true := by
    cases hh : p.healthContainsHealthy <;> simp [test_api_endpoints, hh]
  refine ⟨hl, ha, ?_⟩
  intro lo
  cases lo <;> cases hh : p.homeContentOk <;>
    simp [main, tally, test_home_page, test_page_renders_without_errors,
      hl, ha, hh] <;>
    split_ifs <;> rfl

end WebappPages

namespace ConvertToDocx

open PyStr

theorem procLine_in_code (sb si sl : String → String) (st : ConvState) (line : String)
    (h1 : st.in_code_block = true) (h2 : pyStartsWith line "```" = false) :
    procLine sb si sl st line =
      { st with code_block_content := st.code_block_content ++ [line] } := by
  unfold procLine
  rw [h2, h1]
  simp

theorem foldl_in_code (sb si sl : String → String) :
    ∀ (ls : List String) (st : ConvState), st.in_code_block = true →
      (∀ l ∈ ls, pyStartsWith l "```" = false) →
      ls.foldl (procLine sb si sl) st =
        { st with code_block_content := st.code_block_content ++ ls } := by
  intro ls
  induction ls with
  | nil => intro st _ _; simp
  | cons l ls ih =>
    intro st h1 h2
    rw [List.foldl_cons, procLine_in_code sb si sl st l h1 (h2 l (by simp))]
    rw [ih _ (by simp [h1]) (fun x hx => h2 x (by simp [hx]))]
    simp

set_option maxHeartbeats 2000000 in
theorem procLine_not_code (sb si sl : String → String) (st : ConvState)
    (line : String) (h1 : st.in_code_block = false)
    (h2 : pyStartsWith line "```" = false) :
    (procLine sb si sl st line).in_code_block = false ∧
      (procLine sb si sl st line).code_block_content = st.code_block_content := by
  unfold procLine
  rw [h2, h1]
  simp only [Bool.false_eq_true, if_false]
  split_ifs <;> simp [h1]

theorem procLine_preserves_inv (sb si sl : String → String) (st : ConvState)
    (line : String) (h : st.in_code_block = false → st.code_block_content = []) :
    (procLine sb si sl st line).in_code_block = false →
      (procLine sb si sl st line).code_block_content = [] := by
  cases hc1 : pyStartsWith line "```" with
  | true =>
    cases hc2 : st.in_code_block with
    | true =>
      unfold procLine
      rw [hc1, hc2]
      simp
    | false =>
      unfold procLine
      rw [hc1, hc2]
      simp
  | false =>
    cases hc2 : st.in_code_block with
    | true =>
      rw [procLine_in_code sb si sl st line hc2 hc1]
      intro hfalse
      simp [hc2] at hfalse
    | false =>
      intro _
      rw [(procLine_not_code sb si sl st line hc2 hc1).2]
      exact h hc2

theorem foldl_preserves_inv (sb si sl : String → String) :
    ∀ (ls : List String) (st : ConvState),
      (st.in_code_block = false → st.code_block_content = []) →
      ((ls.foldl (procLine sb si sl) st).in_code_block = false →
        (ls.foldl (procLine sb si sl) st).code_block_content = []) := by
  intro ls
  induction ls with
  | nil => intro st h; exact h
  | cons l ls ih =>
    intro st h
    rw [List.foldl_cons]
    exact ih _ (procLine_preserves_inv sb si sl st l h)

/-- C10: if the lines end with a ``` fence that opens a code block which is
never closed (no later line starts another fence), the saved document is
exactly the document built from the lines before that fence — the lines
after it are accumulated into `code_block_content` but never added to the
output. -/
theorem unclosed_fence_drops_content (sb si sl : String → String)
    (pre post : List String) (fence : String)
    (hf : pyStartsWith fence "```" = true)
    (hopen : (convertLines sb si sl pre).in_code_block = false)
    (hpost : ∀ l ∈ post, pyStartsWith l "```" = false) :
    savedDocument sb si sl (pre ++ fence :: post) = savedDocument sb si sl pre ∧
    (convertLines sb si sl (pre ++ fence :: post)).code_block_content = post := by
  have hpre_cbc : (convertLines sb si sl pre).code_block_content = [] :=
    foldl_preserves_inv sb si sl pre _ (fun _ => rfl) hopen
  have e1 : convertLines sb si sl (pre ++ fence :: post)
      = (fence :: post).foldl (procLine sb si sl) (convertLines sb si sl pre) := by
    unfold convertLines
    rw [List.foldl_append]
  have e2 : procLine sb si sl (convertLines sb si sl pre) fence
      = { convertLines sb si sl pre with in_code_block := true } := by
    unfold procLine
    simp [hf, hopen]
  have e3 : post.foldl (procLine sb si sl)
        { convertLines sb si sl pre with in_code_block := true }
      = { convertLines sb si sl pre with
          in_code_block := true
          code_block_content := (convertLines sb si sl pre).code_block_content ++ post } :=
    foldl_in_code sb si sl post _ (by simp) hpost
  constructor
  · unfold savedDocument
    rw [e1, List.foldl_cons, e2, e3]
  · rw [e1, List.foldl_cons, e2, e3]
    simp [hpre_cbc]

/-- Witness for C10: a document whose first code block is closed and whose
final fence is never closed — the two lines after the final fence are
buffered and dropped from the saved document. -/
theorem unclosed_fence_drops_content_witness :
    pyStartsWith "```" "```" = true ∧
    (convertLines id id id ["# Title", "```", "a = 2", "```", "hello"]).in_code_block
      = false ∧
    savedDocument id id id
        (["# Title", "```", "a = 2", "```", "hello"] ++ "```" :: ["x = 1", "print(x)"])
      = savedDocument id id id ["# Title", "```", "a = 2", "```", "hello"] ∧
    (convertLines id id id
        (["# Title", "```", "a = 2", "```", "hello"] ++ "```" :: ["x = 1", "print(x)"])).code_block_content
      = ["x = 1", "print(x)"] :=
  ⟨by decide, by decide,
   unclosed_fence_drops_content id id id _ _ _ (by decide) (by decide) (by decide)⟩

/-- C9: the converter's `main` calls `sys.exit(1)` exactly when no
conversion method is available (`check_dependencies` returns `None`) or
when zero files were converted successfully; in every other case it returns
normally, and no other exit code is ever produced. -/
theorem main_exit_condition (e : SysEnv) :
    (main e = some 1 ∨ main e = none) ∧
    (main e = some 1 ↔
      (check_dependencies e = none ∨
        ∃ c, check_dependencies e = some c ∧ (conversionCounts e c).1 = 0)) := by
  cases hd : check_dependencies e with
  | none => simp [main, hd]
  | some c =>
    by_cases hc : 0 < (conversionCounts e c).1
    · constructor
      · right
        simp [main, hd, hc]
      · simp only [main, hd, if_pos hc]
        constructor
        · intro h
          exact absurd h (by simp)
        · rintro (h | ⟨c2, hc2, hz⟩)
          · exact absurd h (by simp)
          · rw [← Option.some_inj.mp hc2] at hz
            omega
    · constructor
      · left
        simp [main, hd, hc]
      · simp only [main, hd, if_neg hc]
        constructor
        · intro _
          exact Or.inr ⟨c, rfl, by omega⟩
        · intro _
          trivial

end ConvertToDocx
